import Mathlib

/-!
Verification of the activation-bytes discovery pipeline of the
Audible-Downloader repository, as a shallow embedding in Lean 4.

Each Python function that a claim refers to is translated into an
executable Lean definition; external collaborators (ffprobe, the
filesystem, the browser) are modelled as explicit environment records
passed to the embedded functions, and each function additionally returns
the list of externally visible events it performs, so that properties
such as "the probe is never invoked" or "the driver is quit exactly
once" become statements about the event list.
-/

/-! ## Character and string helpers (Python `str.upper`, `str.strip`)

The inputs in question are ASCII (hex digit candidates, file contents
scanned for hex tokens), so `upper` and `strip` are modelled on ASCII
code points, matching Python behaviour on those inputs. -/

/-- Python `str.upper` on one ASCII character: `a`..`z` maps to `A`..`Z`. -/
def pyUpperChar (c : Char) : Char :=
  if 97 ≤ c.toNat && c.toNat ≤ 122 then Char.ofNat (c.toNat - 32) else c

/-- Python `str.upper`. -/
def pyUpper (s : String) : String :=
  ⟨s.data.map pyUpperChar⟩

/-- The ASCII whitespace characters stripped by Python `str.strip()`:
space, tab, newline, carriage return, vertical tab, form feed. -/
def pyIsSpace (c : Char) : Bool :=
  c.toNat = 32 || c.toNat = 9 || c.toNat = 10 ||
  c.toNat = 13 || c.toNat = 11 || c.toNat = 12

/-- Python `str.strip()` (whitespace from both ends). -/
def pyStrip (s : String) : String :=
  ⟨((s.data.dropWhile pyIsSpace).reverse.dropWhile pyIsSpace).reverse⟩

/-- A hexadecimal digit `[0-9A-Fa-f]`. -/
def hexDigit (c : Char) : Bool :=
  (48 ≤ c.toNat && c.toNat ≤ 57) ||
  (65 ≤ c.toNat && c.toNat ≤ 70) ||
  (97 ≤ c.toNat && c.toNat ≤ 102)

/-- A valid candidate key in the spec's sense: exactly 8 characters,
all from `[0-9A-Fa-f]`. -/
def isHex8 (s : String) : Bool :=
  s.data.length = 8 && s.data.all hexDigit

/-! ## Key persistence (`app.py` lines 622-646 and 723-749)

The persistence file `activation_bytes.txt` is modelled as
`Option String` (its content, or `none` when absent). -/

/-- Outcome of the save endpoint (`save_activation_bytes_endpoint`). -/
inductive SaveResp where
  | required            -- 400, 'activation_bytes required'
  | badLength           -- 400, 'Activation bytes must be 8 characters long'
  | saved (key : String)  -- 200, key as stored
deriving DecidableEq, Repr

/-- `save_activation_bytes_endpoint` (`app.py` 622-646): rejects a missing
or falsy value, rejects length ≠ 8, otherwise overwrites
`activation_bytes.txt` with the uppercased key. -/
def save_activation_bytes_endpoint (ab : Option String) (file : Option String) :
    SaveResp × Option String :=
  match ab with
  | none => (SaveResp.required, file)
  | some k =>
    if k = "" then (SaveResp.required, file)
    else if k.data.length ≠ 8 then (SaveResp.badLength, file)
    else (SaveResp.saved (pyUpper k), some (pyUpper k))

/-- Outcome of the load endpoint (`load_activation_bytes_endpoint`). -/
inductive LoadResp where
  | notFound            -- 404, 'No saved activation bytes found'
  | corrupt             -- 400, 'Invalid activation bytes in file'
  | loaded (key : String) -- 200, key as read
deriving DecidableEq, Repr

/-- `load_activation_bytes_endpoint` (`app.py` 723-749): reads the file,
strips whitespace, and accepts only a length-8 value. -/
def load_activation_bytes_endpoint (file : Option String) : LoadResp :=
  match file with
  | none => LoadResp.notFound
  | some content =>
    let v := pyStrip content
    if v.data.length = 8 then LoadResp.loaded v else LoadResp.corrupt

/-! ## Key validator (`activation_extractor.py` 270-316, `app.py` 545-568)

`test_activation_bytes` looks for `.aax` files in fixed directories; with
none found it returns `False`; otherwise it runs ffprobe on the first one
with the candidate and returns whether the exit status was zero.  The
environment supplies the `.aax` files found and the probe's verdict; the
second component of the result records every ffprobe invocation as a
(candidate, file) pair. -/

structure ProbeEnv where
  /-- The `.aax` files found across the fixed search directories, in
  discovery order. -/
  aaxFiles : List String
  /-- Exit-status-zero verdict of `ffprobe -activation_bytes cand file`. -/
  probeOk : String → String → Bool

/-- `ActivationBytesExtractor.test_activation_bytes`
(`activation_extractor.py` 270-316).  Note there is no format check of
any kind on `ab` in the source: whatever string is passed is handed to
ffprobe as soon as an `.aax` file exists. -/
def test_activation_bytes (env : ProbeEnv) (ab : String) :
    Bool × List (String × String) :=
  match env.aaxFiles with
  | [] => (false, [])
  | f :: _ => (env.probeOk ab f, [(ab, f)])

/-- Outcome of the `/test-activation-bytes` endpoint. -/
inductive TestResp where
  | required            -- 400, 'activation_bytes required'
  | badLength           -- 400, 'Activation bytes must be 8 characters long'
  | result (success : Bool) (key : String) (message : String) -- 200
deriving DecidableEq, Repr

/-- `test_activation_bytes_endpoint` (`app.py` 545-568): rejects a missing
value and a length ≠ 8 value, then calls the validator; the message is
the same fixed string for every `success = false` outcome, whether the
probe failed or no `.aax` file existed. -/
def test_activation_bytes_endpoint (env : ProbeEnv) (ab : Option String) :
    TestResp × List (String × String) :=
  match ab with
  | none => (TestResp.required, [])
  | some k =>
    if k.data.length ≠ 8 then (TestResp.badLength, [])
    else
      let r := test_activation_bytes env k
      (TestResp.result r.1 (pyUpper k)
        (if r.1 then "Activation bytes work!"
         else "Could not verify activation bytes (no .aax files found for testing)"),
       r.2)

/-! ## Key discovery orchestrator (`activation_extractor.py` 335-375)

`extract` builds a list of five entries — audible-cli, manual auth,
selenium auth, file search, manual browser prompt (indices 0-4) — and
iterates over them.  Entries 1 and 2 are lambdas that return `None`
without running the underlying method when email/password are absent
(the `if method is None: continue` guard in the source never fires,
since the lambdas themselves are never `None`).  Each underlying method
either returns an optional key string or raises; `KeyboardInterrupt` is
caught and makes `extract` return `None` at once, any other `Exception`
is caught and the loop continues.  Events record which loop entries ran,
each persistence of a found key (`save_activation_bytes`, line 358,
which happens before the `return` at line 360), and the printing of the
alternative-suggestions list (lines 370-373). -/

inductive ExcClass where
  | ordinary           -- a Python `Exception`
  | keyboardInterrupt  -- Python `KeyboardInterrupt`
deriving DecidableEq, Repr

/-- What one underlying strategy does when it is actually run. -/
inductive StratOutcome where
  | ret : Option String → StratOutcome
  | exc : ExcClass → StratOutcome
deriving DecidableEq, Repr

structure ExtractEnv where
  /-- Both email and password were supplied. -/
  creds : Bool
  /-- Behaviour of strategy `i` (0 = audible-cli, 1 = account API,
  2 = selenium browser automation, 3 = filesystem scan, 4 = manual
  browser prompt) when it is invoked. -/
  strategies : Nat → StratOutcome

inductive ExtractEvent where
  | invoke (i : Nat)
  | save (key : String)
  | suggest
deriving DecidableEq, Repr

/-- Outcome of loop entry `i`: the credential-guarded lambdas (entries 1
and 2) return `None` without running their method when credentials are
absent (`activation_extractor.py` 342-343). -/
def methodOutcome (env : ExtractEnv) (i : Nat) : StratOutcome :=
  if (i = 1 || i = 2) && !env.creds then StratOutcome.ret none
  else env.strategies i

/-- A loop entry outcome that makes the loop move on to the next entry:
`None`, an empty string (falsy in the `if result:` test at line 356), or
a caught ordinary exception. -/
def nonSuccess : StratOutcome → Bool
  | StratOutcome.ret none => true
  | StratOutcome.ret (some s) => s = ""
  | StratOutcome.exc ExcClass.ordinary => true
  | StratOutcome.exc ExcClass.keyboardInterrupt => false

/-- The orchestrator loop (`activation_extractor.py` 348-375) over the
remaining entry indices. -/
def extractLoop (env : ExtractEnv) : List Nat → Option String × List ExtractEvent
  | [] => (none, [ExtractEvent.suggest])
  | i :: rest =>
    match methodOutcome env i with
    | StratOutcome.ret (some s) =>
      if s = "" then
        let r := extractLoop env rest
        (r.1, ExtractEvent.invoke i :: r.2)
      else (some s, [ExtractEvent.invoke i, ExtractEvent.save s])
    | StratOutcome.ret none =>
      let r := extractLoop env rest
      (r.1, ExtractEvent.invoke i :: r.2)
    | StratOutcome.exc ExcClass.ordinary =>
      let r := extractLoop env rest
      (r.1, ExtractEvent.invoke i :: r.2)
    | StratOutcome.exc ExcClass.keyboardInterrupt =>
      (none, [ExtractEvent.invoke i])

/-- `ActivationBytesExtractor.extract` (`activation_extractor.py`
335-375). -/
def extract (env : ExtractEnv) : Option String × List ExtractEvent :=
  extractLoop env [0, 1, 2, 3, 4]

/-- The loop has worked through all entries before `i` without a success
and without a `KeyboardInterrupt`. -/
def reaches (env : ExtractEnv) (i : Nat) : Prop :=
  ∀ j, j < i → nonSuccess (methodOutcome env j) = true

/-! ## Browser-automation strategy (`selenium_activator.py` 105-287)

`SeleniumActivationExtractor.extract_activation_bytes` is modelled as a
function of an environment describing what the browser session runs
into.  The externally visible resource event is the driver teardown
(`driver.quit()`); the function returns its (result, message) pair
together with the list of teardown events, so that "quit exactly once"
is a statement about that list.

Two points of Python semantics matter for faithfulness:

* `TimeoutException` is never imported in `selenium_activator.py` (the
  imports at lines 19-29 bind `webdriver`, `By`, `WebDriverWait`, `EC`,
  the options, manager and service classes only).  When the manual-login
  wait at line 172 times out, evaluating the handler clause
  `except TimeoutException:` (line 176) itself raises `NameError`, so the
  handler body — including the explicit `driver.quit()` at line 178 — is
  unreachable, and the `NameError` is caught by the outer
  `except Exception` at line 282.  The constant
  `timeoutExceptionInScope` records this fact about the source.

* `current_url` is a local variable assigned only in the
  non-debug branch (line 210); in debug mode the read at line 226
  raises `UnboundLocalError`, caught by the outer handler.  Likewise
  `re` is bound (line 233) only inside the `player-auth-token` block, so
  the library fallback (lines 259-276) raises `UnboundLocalError` inside
  its own `try` when that block was skipped, and falls through. -/

/-- `TimeoutException` is bound in the module scope of
`selenium_activator.py`: it is not (no import binds it). -/
def timeoutExceptionInScope : Bool := false

inductive SelEvent where
  | quit
deriving DecidableEq, Repr

structure SelEnv where
  /-- `SELENIUM_AVAILABLE` (line 30). -/
  depsOk : Bool
  /-- `setup_driver` created the browser session (lines 63-93). -/
  setupOk : Bool
  /-- Debug flag of the extractor. -/
  debug : Bool
  /-- The initial navigations (lines 161-164) raise unexpectedly. -/
  navRaises : Bool
  /-- Debug mode: the post-login element appeared within the 120 s wait. -/
  manualLoginOk : Bool
  /-- Non-debug: form fill and submit (lines 186-201) did not raise. -/
  loginFormOk : Bool
  /-- Page source contains a captcha/robot indicator (line 213). -/
  pageCaptcha : Bool
  /-- Page source contains a two-step/2fa/verification indicator (line 216). -/
  page2FA : Bool
  /-- URL still on sign-in and page shows an error (line 219). -/
  signinError : Bool
  /-- `current_url` contains `player-auth-token` (line 226). -/
  urlPlayerAuth : Bool
  /-- Capture of the structured `activation_bytes` pattern on the
  auth-token page (line 237), if any. -/
  pat1 : Option String
  /-- Captures of the loose quoted-8-hex pattern on the auth-token page
  (line 245), in order. -/
  potential : List String
  /-- The library navigation (lines 260-262) raises. -/
  libraryRaises : Bool
  /-- Capture of the structured pattern on the library page (line 271). -/
  libraryPat1 : Option String

/-- The body of the `try` at `selenium_activator.py` 118-283, returning
(result, message) and any `quit` events performed inside the body. -/
def selTryBody (env : SelEnv) : (Option String × String) × List SelEvent :=
  if env.navRaises then ((none, "Extraction failed: navigation error"), [])
  else if env.debug then
    if !env.manualLoginOk then
      if timeoutExceptionInScope then
        -- lines 177-179: print, driver.quit(), return
        ((none, "Timed out waiting for manual login"), [SelEvent.quit])
      else
        -- handler lookup raises NameError, caught at line 282
        ((none, "Extraction failed: name TimeoutException is not defined"), [])
    else
      -- line 226 reads the unassigned local current_url
      ((none, "Extraction failed: current_url referenced before assignment"), [])
  else if !env.loginFormOk then
    ((none, "Login automation failed"), [])
  else if env.pageCaptcha then
    ((none, "CAPTCHA detected. Please try again later or use debug mode."), [])
  else if env.page2FA then
    ((none, "Two-factor authentication detected. Please use debug mode for manual verification."), [])
  else if env.signinError then
    ((none, "Login failed. Please check your credentials."), [])
  else
    let potentialBytes :=
      (env.potential.filter (fun m => m.data.length = 8 && m.data.all hexDigit)).map pyUpper
    if env.urlPlayerAuth then
      match env.pat1 with
      | some m => ((some (pyUpper m), "Success"), [])
      | none =>
        match potentialBytes with
        | b :: _ => ((some b, "Success (potential match)"), [])
        | [] =>
          -- library fallback: `re` is in scope here
          if env.libraryRaises then
            ((none, "Could not extract activation bytes."), [])
          else
            match env.libraryPat1 with
            | some m => ((some (pyUpper m), "Success"), [])
            | none => ((none, "Could not extract activation bytes."), [])
    else
      -- library fallback reached with `re` unbound: UnboundLocalError is
      -- raised inside the inner try (line 270) and caught at line 277
      ((none, "Could not extract activation bytes."), [])

/-- `SeleniumActivationExtractor.extract_activation_bytes`
(`selenium_activator.py` 105-287): dependency check and driver setup
happen before the `try`, so their failure returns create no session and
no teardown; once the session exists, the `finally` at lines 285-287
runs `driver.quit()` on every exit of the body. -/
def extract_activation_bytes_sel (env : SelEnv) :
    (Option String × String) × List SelEvent :=
  if !env.depsOk then ((none, "Selenium is not installed."), [])
  else if !env.setupOk then ((none, "Failed to initialize WebDriver"), [])
  else
    let body := selTryBody env
    (body.1, body.2 ++ [SelEvent.quit])

/-! ## Player-identifier derivation (`selenium_activator.py` 95-103)

`generate_player_id` base64-encodes either the SHA-1 digest of the empty
byte string or the `unhexlify` of a caller-supplied hex identifier, and
strips trailing whitespace (`rstrip`).  SHA-1 and base64 are implemented
below from their standard definitions; bytes are `Nat` values < 256 and
32-bit words are `Nat` values reduced mod 2^32. -/

/-- Left-rotation of a 32-bit word (`x` assumed < 2^32). -/
def rotl32 (n x : Nat) : Nat :=
  ((x <<< n) % 4294967296) ||| (x >>> (32 - n))

/-- SHA-1 padding: append `0x80`, zeros to 56 mod 64, then the 64-bit
big-endian bit length. -/
def sha1Pad (msg : List Nat) : List Nat :=
  let len := msg.length
  let k := (56 + 64 - ((len + 1) % 64)) % 64
  msg ++ [128] ++ List.replicate k 0 ++
    (List.range 8).map (fun i => ((len * 8) >>> (8 * (7 - i))) % 256)

/-- Split a byte list into 64-byte blocks (fuel-driven, fuel = length
is always sufficient). -/
def splitBlocksAux : Nat → List Nat → List (List Nat)
  | 0, _ => []
  | _, [] => []
  | fuel + 1, l => l.take 64 :: splitBlocksAux fuel (l.drop 64)

def splitBlocks (l : List Nat) : List (List Nat) :=
  splitBlocksAux l.length l

/-- Extend the 16 message words to 80 schedule words. -/
def sha1Schedule (ws : List Nat) : List Nat :=
  List.foldl
    (fun acc _ =>
      let n := acc.length
      acc ++ [rotl32 1 ((acc.getD (n - 3) 0) ^^^ (acc.getD (n - 8) 0) ^^^
                        (acc.getD (n - 14) 0) ^^^ (acc.getD (n - 16) 0))])
    ws (List.range 64)

def sha1F (i b c d : Nat) : Nat :=
  if i < 20 then (b &&& c) ||| ((b ^^^ 4294967295) &&& d)
  else if i < 40 then b ^^^ c ^^^ d
  else if i < 60 then (b &&& c) ||| (b &&& d) ||| (c &&& d)
  else b ^^^ c ^^^ d

def sha1K (i : Nat) : Nat :=
  if i < 20 then 1518500249
  else if i < 40 then 1859775393
  else if i < 60 then 2400959708
  else 3395469782

/-- One SHA-1 compression round. -/
def sha1Round (w : List Nat) (st : Nat × Nat × Nat × Nat × Nat) (i : Nat) :
    Nat × Nat × Nat × Nat × Nat :=
  match st with
  | (a, b, c, d, e) =>
    ((rotl32 5 a + sha1F i b c d + e + sha1K i + w.getD i 0) % 4294967296,
     a, rotl32 30 b, c, d)

/-- Process one 64-byte block. -/
def sha1Block (h : List Nat) (block : List Nat) : List Nat :=
  let ws := sha1Schedule ((List.range 16).map (fun j =>
    (block.getD (4 * j) 0) * 16777216 + (block.getD (4 * j + 1) 0) * 65536 +
    (block.getD (4 * j + 2) 0) * 256 + block.getD (4 * j + 3) 0))
  let st := List.foldl (sha1Round ws)
    (h.getD 0 0, h.getD 1 0, h.getD 2 0, h.getD 3 0, h.getD 4 0)
    (List.range 80)
  match st with
  | (a, b, c, d, e) =>
    [(h.getD 0 0 + a) % 4294967296, (h.getD 1 0 + b) % 4294967296,
     (h.getD 2 0 + c) % 4294967296, (h.getD 3 0 + d) % 4294967296,
     (h.getD 4 0 + e) % 4294967296]

/-- SHA-1 of a byte list, as the 20-byte digest. -/
def sha1 (msg : List Nat) : List Nat :=
  let hs := List.foldl sha1Block
    [1732584193, 4023233417, 2562383102, 271733878, 3285377520]
    (splitBlocks (sha1Pad msg))
  hs.flatMap (fun h => [(h >>> 24) % 256, (h >>> 16) % 256, (h >>> 8) % 256, h % 256])

def base64Alphabet : List Char :=
  "ABCDEFGHIJKLMNOPQRSTUVWXYZabcdefghijklmnopqrstuvwxyz0123456789+/".data

def b64char (n : Nat) : Char := base64Alphabet.getD n 'A'

/-- Standard base64 of a byte list, with `=` padding. -/
def base64Core : List Nat → List Char
  | [] => []
  | [b1] => [b64char (b1 >>> 2), b64char ((b1 % 4) <<< 4), '=', '=']
  | [b1, b2] =>
    [b64char (b1 >>> 2), b64char (((b1 % 4) <<< 4) + (b2 >>> 4)),
     b64char ((b2 % 16) <<< 2), '=']
  | b1 :: b2 :: b3 :: rest =>
    b64char (b1 >>> 2) :: b64char (((b1 % 4) <<< 4) + (b2 >>> 4)) ::
    b64char (((b2 % 16) <<< 2) + (b3 >>> 6)) :: b64char (b3 % 64) ::
    base64Core rest

def base64Encode (bytes : List Nat) : String := ⟨base64Core bytes⟩

/-- Python `str.rstrip()`. -/
def pyRstrip (s : String) : String :=
  ⟨(s.data.reverse.dropWhile pyIsSpace).reverse⟩

/-- One hex digit's value (`binascii` accepts both cases). -/
def hexVal (c : Char) : Option Nat :=
  if 48 ≤ c.toNat && c.toNat ≤ 57 then some (c.toNat - 48)
  else if 65 ≤ c.toNat && c.toNat ≤ 70 then some (c.toNat - 55)
  else if 97 ≤ c.toNat && c.toNat ≤ 102 then some (c.toNat - 87)
  else none

/-- `binascii.unhexlify`: pairs of hex digits to bytes; odd length or a
non-hex character raises (modelled as `none`). -/
def unhexlifyList : List Char → Option (List Nat)
  | [] => some []
  | [_] => none
  | c1 :: c2 :: rest =>
    match hexVal c1, hexVal c2, unhexlifyList rest with
    | some h, some l, some bs => some ((h * 16 + l) :: bs)
    | _, _, _ => none

def unhexlify (s : String) : Option (List Nat) := unhexlifyList s.data

/-- `SeleniumActivationExtractor.generate_player_id`
(`selenium_activator.py` 95-103).  The `if custom_id:` test is Python
truthiness, so an empty string also takes the default branch; a
malformed hex identifier makes `unhexlify` raise (`none` here). -/
def generate_player_id (customId : Option String) : Option String :=
  match customId with
  | some c =>
    if c = "" then some (pyRstrip (base64Encode (sha1 [])))
    else (unhexlify c).map (fun bs => pyRstrip (base64Encode bs))
  | none => some (pyRstrip (base64Encode (sha1 [])))

/-! ## Filesystem-scan strategy (`activation_extractor.py` 174-237)

`method_3_file_search` visits files with a text-like extension and runs
three `re.findall` patterns (with `re.IGNORECASE`) over each content,
collecting the uppercased captures into a set:

* `activation.?bytes["\s:=]+([0-9A-Fa-f]{8})`
* `"activation.?bytes"["\s:=]+([0-9A-Fa-f]{8})`
* `["\s]([0-9A-Fa-f]{8})["\s]`

The three patterns are implemented below as dedicated matchers with
Python's semantics at the points where they matter: matching is
case-insensitive, `.` does not match a newline, the greedy `.?` tries
one character before zero, the greedy `["\s:=]+` needs no backtracking
because its character class is disjoint from the hex class that follows,
and `findall` collects non-overlapping leftmost matches, resuming after
each match's end. -/

/-- Lowercase an ASCII character (for case-insensitive matching and for
Python `str.lower` on the file suffix). -/
def pyLowerChar (c : Char) : Char :=
  if 65 ≤ c.toNat && c.toNat ≤ 90 then Char.ofNat (c.toNat + 32) else c

/-- Python `str.lower`. -/
def pyLower (s : String) : String :=
  ⟨s.data.map pyLowerChar⟩

/-- Case-insensitive literal match; returns the remaining input. -/
def matchLitCI : List Char → List Char → Option (List Char)
  | [], s => some s
  | _, [] => none
  | l :: ls, c :: cs =>
    if pyLowerChar l = pyLowerChar c then matchLitCI ls cs else none

/-- The character class `["\s:=]`. -/
def classChar (c : Char) : Bool :=
  c = '"' || pyIsSpace c || c = ':' || c = '='

/-- The character class `["\s]`. -/
def quoteSpace (c : Char) : Bool :=
  c = '"' || pyIsSpace c

/-- Match `([0-9A-Fa-f]{8})`: exactly eight hex digits; returns the
capture and the remaining input. -/
def takeHex8 (s : List Char) : Option (List Char × List Char) :=
  let cap := s.take 8
  if cap.length = 8 && cap.all hexDigit then some (cap, s.drop 8) else none

/-- Match `["\s:=]+([0-9A-Fa-f]{8})`: the greedy one-or-more class run
followed by the eight-hex-digit capture. -/
def matchClassHex (r : List Char) : Option (List Char × List Char) :=
  let cls := r.takeWhile classChar
  if cls.isEmpty then none else takeHex8 (r.dropWhile classChar)

/-- Match `.?bytes` then `["\s:=]+([0-9A-Fa-f]{8})` at the start of the
input (the part of patterns 1 and 2 after the `activation` literal);
greedy `.?` tries one non-newline character first, then none. -/
def matchDotBytes (r : List Char) : Option (List Char × List Char) :=
  (match r with
   | c :: r2 =>
     if c = '\n' then none else (matchLitCI "bytes".data r2).bind matchClassHex
   | [] => none) <|>
  (matchLitCI "bytes".data r).bind matchClassHex

/-- Pattern `activation.?bytes["\s:=]+([0-9A-Fa-f]{8})` at the start of
the input. -/
def matchP1At (s : List Char) : Option (List Char × List Char) :=
  (matchLitCI "activation".data s).bind matchDotBytes

/-- Match `.?bytes"` then `["\s:=]+([0-9A-Fa-f]{8})` (pattern 2 after
the `"activation` prefix). -/
def matchDotBytesQuote (r : List Char) : Option (List Char × List Char) :=
  (match r with
   | c :: r2 =>
     if c = '\n' then none
     else (matchLitCI "bytes".data r2).bind (fun r3 =>
       match r3 with
       | '"' :: r4 => matchClassHex r4
       | _ => none)
   | [] => none) <|>
  ((matchLitCI "bytes".data r).bind (fun r3 =>
    match r3 with
    | '"' :: r4 => matchClassHex r4
    | _ => none))

/-- Pattern `"activation.?bytes"["\s:=]+([0-9A-Fa-f]{8})` at the start
of the input. -/
def matchP2At (s : List Char) : Option (List Char × List Char) :=
  match s with
  | '"' :: r0 => (matchLitCI "activation".data r0).bind matchDotBytesQuote
  | _ => none

/-- Pattern `["\s]([0-9A-Fa-f]{8})["\s]` at the start of the input. -/
def matchP3At (s : List Char) : Option (List Char × List Char) :=
  match s with
  | c :: r =>
    if quoteSpace c then
      match takeHex8 r with
      | some (cap, c2 :: r2) => if quoteSpace c2 then some (cap, r2) else none
      | _ => none
    else none
  | [] => none

/-- `re.findall`: collect the captures of the non-overlapping leftmost
matches, resuming after each match (fuel-driven; every step consumes at
least one character, so fuel = input length is always sufficient). -/
def findAllAux (m : List Char → Option (List Char × List Char)) :
    Nat → List Char → List (List Char)
  | 0, _ => []
  | _, [] => []
  | fuel + 1, c :: rest =>
    match m (c :: rest) with
    | some p => p.1 :: findAllAux m fuel p.2
    | none => findAllAux m fuel rest

def findAll (m : List Char → Option (List Char × List Char))
    (s : List Char) : List (List Char) :=
  findAllAux m s.length s

/-- Fold a pattern's captures into the candidate set (`found_bytes` in
the source — a Python set, modelled as an insertion-ordered list without
duplicates): `if len(match) == 8: found_bytes.add(match.upper())`. -/
def collectCaptures (acc : List String) (caps : List (List Char)) : List String :=
  caps.foldl
    (fun a cap =>
      if cap.length = 8 then
        let u := pyUpper ⟨cap⟩
        if a.contains u then a else a ++ [u]
      else a)
    acc

/-- The candidates collected from one file's content by the three
patterns of `method_3_file_search` (lines 207-219). -/
def searchContent (acc : List String) (content : String) : List String :=
  let s := content.data
  collectCaptures
    (collectCaptures (collectCaptures acc (findAll matchP1At s))
      (findAll matchP2At s))
    (findAll matchP3At s)

/-- A file visited by the scan: its `Path.suffix` and its content as
read with lenient decoding. -/
structure ScanFile where
  suffix : String
  content : String

/-- The text-like extension allow-list of line 200. -/
def textSuffixes : List String := [".json", ".txt", ".log", ".cfg", ".ini", ".xml"]

/-- The candidate set collected by `method_3_file_search`
(`activation_extractor.py` 187-224) over the files of its search
directories: files whose lowercased suffix is outside the allow-list are
skipped, the rest are scanned with the three patterns.  (The method then
returns the first candidate that the validator confirms, or the first
candidate found; claim C7 is about this collected set.) -/
def method_3_candidates (files : List ScanFile) : List String :=
  files.foldl
    (fun acc f =>
      if textSuffixes.contains (pyLower f.suffix) then searchContent acc f.content
      else acc)
    []

/-! ## Temporary working directories (`app.py` 387-461 and 570-620)

The filesystem is modelled as the set of existing temporary directories
plus a counter from which `tempfile.mkdtemp` draws fresh names: a new
directory gets the current counter value as its name, which is fresh for
every well-formed state (every existing name below the counter). -/

structure TmpFS where
  tempDirs : List Nat
  counter : Nat

/-- `tempfile.mkdtemp`: create and return a fresh directory. -/
def mkdtemp (fs : TmpFS) : Nat × TmpFS :=
  (fs.counter, ⟨fs.counter :: fs.tempDirs, fs.counter + 1⟩)

/-- `shutil.rmtree`: remove a directory. -/
def rmtree (d : Nat) (fs : TmpFS) : TmpFS :=
  ⟨fs.tempDirs.filter (fun x => x ≠ d), fs.counter⟩

/-- Well-formedness: every existing directory name is below the
counter (so the next `mkdtemp` name is genuinely new). -/
def TmpFS.WF (fs : TmpFS) : Prop := ∀ d ∈ fs.tempDirs, d < fs.counter

inductive HttpResp where
  | ok | badRequest | notFound | serverError
deriving DecidableEq, Repr

/-- Behaviour of the collaborators during one `/upload` request. -/
structure UploadEnv where
  /-- `'file' in request.files` (line 392). -/
  hasFilePart : Bool
  /-- `file.filename == ''` (line 400). -/
  filenameEmpty : Bool
  /-- `allowed_file(file.filename)` (line 404). -/
  allowedExt : Bool
  /-- `convert_audible_file` returned instead of raising (line 426). -/
  convertOk : Bool
  /-- `shutil.move` to the output folder succeeded (line 433). -/
  moveOk : Bool

/-- `upload_file` (`app.py` 387-461): validation failures return before
any directory is created; once `tempfile.mkdtemp` has run (line 411),
the `finally` block (lines 454-461) removes the directory whether the
body returned normally or raised (a raise inside the `try` is answered
with a 500 by the `except` at lines 451-453).  The third component is
the directory this request created, if any. -/
def upload_file (env : UploadEnv) (fs : TmpFS) : HttpResp × TmpFS × Option Nat :=
  if !env.hasFilePart then (HttpResp.badRequest, fs, none)
  else if env.filenameEmpty then (HttpResp.badRequest, fs, none)
  else if !env.allowedExt then (HttpResp.badRequest, fs, none)
  else
    let p := mkdtemp fs
    let resp := if env.convertOk && env.moveOk then HttpResp.ok else HttpResp.serverError
    (resp, rmtree p.1 p.2, some p.1)

/-- Behaviour of the collaborators during one `/chunk-file` request. -/
structure ChunkEnv where
  /-- A filename was supplied (line 577). -/
  filenameGiven : Bool
  /-- The named file exists in the output folder (line 581). -/
  fileExists : Bool
  /-- `split_audio_file` returned instead of raising (line 591). -/
  splitOk : Bool
  /-- `create_zip_archive` succeeded (line 597). -/
  zipOk : Bool

/-- `chunk_file` (`app.py` 570-620): validation failures return before
`tempfile.mkdtemp` (line 587); afterwards the inner `finally`
(lines 612-616) removes the directory on success and on a raise (which
the outer `except` turns into a 500). -/
def chunk_file (env : ChunkEnv) (fs : TmpFS) : HttpResp × TmpFS × Option Nat :=
  if !env.filenameGiven then (HttpResp.badRequest, fs, none)
  else if !env.fileExists then (HttpResp.notFound, fs, none)
  else
    let p := mkdtemp fs
    let resp := if env.splitOk && env.zipOk then HttpResp.ok else HttpResp.serverError
    (resp, rmtree p.1 p.2, some p.1)

/-! ## Chunk splitting (`app.py` 313-364)

`split_audio_file` computes one chunk duration from the target size and
the file's size and duration, floors it at 60 seconds, and then walks
`start_time` from 0 to the total duration, cutting `[start, min(start +
duration, total))` pieces.  Durations and sizes are modelled as
rationals; the loop is fuel-driven (each iteration advances `start` by
at least the positive chunk duration, so any fuel with `total ≤ fuel *
60` is sufficient, which the tiling theorem takes as a hypothesis). -/

/-- Lines 320-327: `(max_size_mb / file_size_mb) * total_duration`,
floored at the 60-second minimum. -/
def chunk_duration (maxSizeMb fileSizeMb totalDuration : ℚ) : ℚ :=
  max ((maxSizeMb / fileSizeMb) * totalDuration) 60

/-- The `while start_time < total_duration` loop of lines 336-360,
returning the (start, end) interval of each chunk emitted. -/
def buildChunks (d total : ℚ) : Nat → ℚ → List (ℚ × ℚ)
  | 0, _ => []
  | fuel + 1, start =>
    if start < total then
      (start, min (start + d) total) :: buildChunks d total fuel (min (start + d) total)
    else []

/-- `split_audio_file` (`app.py` 313-364), as the intervals of the
chunks it produces. -/
def split_audio_file (fuel : Nat) (totalDuration fileSizeMb maxSizeMb : ℚ) :
    List (ℚ × ℚ) :=
  buildChunks (chunk_duration maxSizeMb fileSizeMb totalDuration) totalDuration fuel 0

/-- The intervals `l` tile `[s, t]` consecutively: each starts where its
predecessor ended, each is non-degenerate, and the last ends exactly
at `t`. -/
def tilesFrom (t : ℚ) : ℚ → List (ℚ × ℚ) → Prop
  | s, [] => s = t
  | s, p :: rest => p.1 = s ∧ s < p.2 ∧ tilesFrom t p.2 rest

/-! ## Concrete environments for counterexamples and witnesses -/

/-- An environment for the validator with one `.aax` file present and a
probe that rejects every candidate. -/
def c1Env : ProbeEnv := ⟨["sample.aax"], fun _ _ => false⟩

/-- Validator environment with no `.aax` file anywhere. -/
def c3EnvNoAax : ProbeEnv := ⟨[], fun _ _ => true⟩

/-- Validator environment with an `.aax` file and a failing probe. -/
def c3EnvProbeFails : ProbeEnv := ⟨["sample.aax"], fun _ _ => false⟩

/-- Orchestrator environment: strategies 0 and 1 find nothing, strategy 2
succeeds. -/
def c5Env : ExtractEnv :=
  ⟨true, fun i => if i < 2 then StratOutcome.ret none
                  else StratOutcome.ret (some "1A2B3C4D")⟩

/-- Orchestrator environment: strategy 0 raises `KeyboardInterrupt`,
every later strategy would succeed. -/
def c6Env : ExtractEnv :=
  ⟨true, fun i => if i = 0 then StratOutcome.exc ExcClass.keyboardInterrupt
                  else StratOutcome.ret (some "1A2B3C4D")⟩

/-- Orchestrator environment where every strategy raises an ordinary
exception. -/
def c6EnvOrd : ExtractEnv := ⟨true, fun _ => StratOutcome.exc ExcClass.ordinary⟩

/-- A browser-strategy environment: dependencies and driver fine,
non-debug automated login succeeds and the auth-token page carries the
structured pattern. -/
def c4Env : SelEnv :=
  ⟨true, true, false, false, false, true, false, false, false, true,
   some "1a2b3c4d", [], false, none⟩

/-- An upload request that passes validation and converts successfully. -/
def c9UploadEnv : UploadEnv := ⟨true, false, true, true, true⟩

/-- A chunking request that passes validation and splits successfully. -/
def c9ChunkEnv : ChunkEnv := ⟨true, true, true, true⟩

/-- A well-formed starting filesystem with two existing temp dirs. -/
def c9FS : TmpFS := ⟨[0, 1], 2⟩

/-- The text of claim C7, as a character list:
`"activation_bytes": "1a2b3c4d"`. -/
def c7Text : List Char := "\"activation_bytes\": \"1a2b3c4d\"".data

/-- The capture that pattern 1 extracts from `c7Text`. -/
def c7Cap : List Char := "1a2b3c4d".data

/-- `c7Text` without its leading quote. -/
def c7Tail : List Char := "activation_bytes\": \"1a2b3c4d\"".data

/-! ## Helper lemmas -/

theorem toNat_ofNat_small (n : Nat) (h : n < 55296) : (Char.ofNat n).toNat = n := by
  unfold Char.ofNat
  rw [dif_pos]
  · rfl
  · exact Or.inl (by exact_mod_cast h)

theorem pyUpperChar_not_space (c : Char) (h : hexDigit c = true) :
    pyIsSpace (pyUpperChar c) = false := by
  unfold hexDigit at h
  simp only [Bool.or_eq_true, Bool.and_eq_true, decide_eq_true_eq] at h
  unfold pyUpperChar
  by_cases hb : (97 ≤ c.toNat && c.toNat ≤ 122) = true
  · rw [if_pos hb]
    simp only [Bool.and_eq_true, decide_eq_true_eq] at hb
    unfold pyIsSpace
    rw [toNat_ofNat_small _ (by omega)]
    simp only [Bool.or_eq_false_iff, decide_eq_false_iff_not]
    omega
  · rw [if_neg hb]
    simp only [Bool.and_eq_true, decide_eq_true_eq, not_and, not_le] at hb
    unfold pyIsSpace
    simp only [Bool.or_eq_false_iff, decide_eq_false_iff_not]
    omega

theorem dropWhile_eq_self_of_all {p : Char → Bool} (l : List Char)
    (h : ∀ x ∈ l, p x = false) : l.dropWhile p = l := by
  cases l with
  | nil => rfl
  | cons a t =>
    rw [List.dropWhile_cons]
    rw [h a (List.mem_cons_self a t)]
    simp

theorem pyStrip_eq_self (s : String) (h : ∀ c ∈ s.data, pyIsSpace c = false) :
    pyStrip s = s := by
  unfold pyStrip
  rw [dropWhile_eq_self_of_all _ h]
  rw [dropWhile_eq_self_of_all _ (by intro x hx; exact h x (List.mem_reverse.mp hx))]
  rw [List.reverse_reverse]

theorem pyStrip_upper_hex (k : String) (h : ∀ c ∈ k.data, hexDigit c = true) :
    pyStrip (pyUpper k) = pyUpper k := by
  apply pyStrip_eq_self
  intro c hc
  unfold pyUpper at hc
  simp only [List.mem_map] at hc
  obtain ⟨c0, hc0, rfl⟩ := hc
  exact pyUpperChar_not_space c0 (h c0 hc0)

/-! ## Claim C1 -/

/-- C1 counterexample: the claim "every candidate of length ≠ 8 or with a
non-hex character is rejected as invalid format by every strategy and
the validator, and the probe is never invoked with it" is false on the
code: the length-8 non-hex candidate `GGGGGGGG` passes the endpoint's
length-only check and is handed to ffprobe, and the validator itself
passes even the 7-character candidate `1234567` straight to ffprobe. -/
theorem C1_counterexample :
    isHex8 "GGGGGGGG" = false ∧
    (test_activation_bytes_endpoint c1Env (some "GGGGGGGG")).2 =
      [("GGGGGGGG", "sample.aax")] ∧
    (test_activation_bytes c1Env "1234567").2 = [("1234567", "sample.aax")] := by
  decide

/-- C1 (amended): the test endpoint rejects a candidate whose length is
not 8 without invoking the probe; but no hexadecimal-character check
exists anywhere on this path — the validator itself performs no format
check and invokes the probe with whatever candidate it is given as soon
as an `.aax` file is present. -/
theorem C1_length_only_validation (env : ProbeEnv) (k : String) :
    (k.data.length ≠ 8 →
      test_activation_bytes_endpoint env (some k) = (TestResp.badLength, [])) ∧
    (∀ f rest, env.aaxFiles = f :: rest →
      (test_activation_bytes env k).2 = [(k, f)]) := by
  constructor
  · intro hk
    simp only [test_activation_bytes_endpoint]
    rw [if_pos hk]
  · intro f rest hf
    unfold test_activation_bytes
    rw [hf]

/-- C1 amended-claim witness at concrete inputs. -/
theorem C1_length_only_validation_witness :
    test_activation_bytes_endpoint c1Env (some "DEADBEE") = (TestResp.badLength, []) ∧
    (test_activation_bytes c1Env "GGGGGGGG").2 = [("GGGGGGGG", "sample.aax")] :=
  ⟨(C1_length_only_validation c1Env "DEADBEE").1 (by decide),
   (C1_length_only_validation c1Env "GGGGGGGG").2 "sample.aax" [] rfl⟩

/-! ## Claim C2 -/

/-- C2: for every valid 8-hex-digit key `k`, saving `k` stores the
uppercased key and a subsequent load returns exactly `uppercase(k)`:
persistence round-trips. -/
theorem C2_persistence_roundtrip (k : String) (file : Option String)
    (hk : isHex8 k = true) :
    (save_activation_bytes_endpoint (some k) file).1 = SaveResp.saved (pyUpper k) ∧
    load_activation_bytes_endpoint (save_activation_bytes_endpoint (some k) file).2 =
      LoadResp.loaded (pyUpper k) := by
  unfold isHex8 at hk
  simp only [Bool.and_eq_true, decide_eq_true_eq, List.all_eq_true] at hk
  obtain ⟨hlen, hhex⟩ := hk
  have hne : ¬ k = "" := by
    intro h
    subst h
    simp at hlen
  have hupperlen : (pyUpper k).data.length = 8 := by
    unfold pyUpper
    simp [hlen]
  have hstrip : pyStrip (pyUpper k) = pyUpper k :=
    pyStrip_upper_hex k (fun c hc => hhex c hc)
  simp only [save_activation_bytes_endpoint]
  rw [if_neg hne, if_neg (not_not_intro hlen)]
  refine ⟨rfl, ?_⟩
  show load_activation_bytes_endpoint (some (pyUpper k)) = _
  unfold load_activation_bytes_endpoint
  simp only [hstrip]
  rw [if_pos hupperlen]

/-- C2 witness: the round-trip at the concrete key `deadBEEF`. -/
theorem C2_persistence_roundtrip_witness :
    isHex8 "deadBEEF" = true ∧
    (save_activation_bytes_endpoint (some "deadBEEF") none).1 =
      SaveResp.saved "DEADBEEF" ∧
    load_activation_bytes_endpoint
      (save_activation_bytes_endpoint (some "deadBEEF") none).2 =
      LoadResp.loaded "DEADBEEF" := by
  have h := C2_persistence_roundtrip "deadBEEF" none (by decide)
  have e : pyUpper "deadBEEF" = "DEADBEEF" := by decide
  rw [e] at h
  exact ⟨by decide, h.1, h.2⟩

/-! ## Claim C3 -/

/-- C3 counterexample: the claim that the validator's "cannot verify"
outcome is distinct from both success and failure is false on the code:
with no `.aax` file the validator returns `False` — the very same value
it returns when the probe fails — and the endpoint's whole response in
the two situations is identical as well. -/
theorem C3_counterexample :
    (test_activation_bytes c3EnvNoAax "1A2B3C4D").1 =
      (test_activation_bytes c3EnvProbeFails "1A2B3C4D").1 ∧
    (test_activation_bytes_endpoint c3EnvNoAax (some "1A2B3C4D")).1 =
      (test_activation_bytes_endpoint c3EnvProbeFails (some "1A2B3C4D")).1 := by
  decide

/-- C3 (amended): when no `.aax` file exists in any search directory the
validator returns `False` without invoking the probe — an outcome
distinguishable from validation failure only by the log text, not by the
returned value. -/
theorem C3_no_aax_returns_false (env : ProbeEnv) (k : String)
    (h : env.aaxFiles = []) :
    test_activation_bytes env k = (false, []) := by
  unfold test_activation_bytes
  rw [h]

/-- C3 amended-claim witness at concrete inputs. -/
theorem C3_no_aax_returns_false_witness :
    test_activation_bytes c3EnvNoAax "1A2B3C4D" = (false, []) :=
  C3_no_aax_returns_false c3EnvNoAax "1A2B3C4D" rfl

/-! ## Claim C4 -/

/-- The body of the strategy's `try` performs no teardown itself: the
only explicit `driver.quit()` inside it (line 178) sits in the
`except TimeoutException:` handler whose name lookup fails, so it is
unreachable. -/
theorem selTryBody_no_quit (env : SelEnv) : (selTryBody env).2 = [] := by
  unfold selTryBody timeoutExceptionInScope
  dsimp only
  repeat' first | rfl | split

/-- C4: in every execution of the browser-automation strategy in which
the browser session was created (dependencies present, driver setup
succeeded), the session teardown `driver.quit()` runs exactly once —
whatever combination of debug mode, login outcome, challenge pages,
pattern hits and unexpected exceptions the session runs into, the
`finally` block is the one place that quits. -/
theorem C4_teardown_exactly_once (env : SelEnv)
    (hd : env.depsOk = true) (hs : env.setupOk = true) :
    ((extract_activation_bytes_sel env).2).count SelEvent.quit = 1 := by
  unfold extract_activation_bytes_sel
  rw [hd, hs]
  simp [selTryBody_no_quit env]

/-- C4 witness: the concrete successful non-debug session quits exactly
once. -/
theorem C4_teardown_exactly_once_witness :
    ((extract_activation_bytes_sel c4Env).2).count SelEvent.quit = 1 :=
  C4_teardown_exactly_once c4Env rfl rfl

/-! ## Claims C5 and C6 -/

theorem extractLoop_cons_nonSuccess (env : ExtractEnv) (i : Nat) (rest : List Nat)
    (h : nonSuccess (methodOutcome env i) = true) :
    extractLoop env (i :: rest) =
      ((extractLoop env rest).1, ExtractEvent.invoke i :: (extractLoop env rest).2) := by
  cases hm : methodOutcome env i with
  | ret o =>
    cases o with
    | none => simp [extractLoop, hm]
    | some s =>
      rw [hm] at h
      unfold nonSuccess at h
      simp only [decide_eq_true_eq] at h
      simp [extractLoop, hm, h]
  | exc e =>
    cases e with
    | ordinary => simp [extractLoop, hm]
    | keyboardInterrupt =>
      rw [hm] at h
      exact absurd h (by unfold nonSuccess; simp)

theorem extractLoop_cons_success (env : ExtractEnv) (i : Nat) (rest : List Nat)
    (k : String) (hm : methodOutcome env i = StratOutcome.ret (some k))
    (hk : k ≠ "") :
    extractLoop env (i :: rest) =
      (some k, [ExtractEvent.invoke i, ExtractEvent.save k]) := by
  simp [extractLoop, hm, hk]

theorem invoke_head_mem (env : ExtractEnv) (i : Nat) (rest : List Nat) :
    ExtractEvent.invoke i ∈ (extractLoop env (i :: rest)).2 := by
  cases hm : methodOutcome env i with
  | ret o =>
    cases o with
    | none => simp [extractLoop, hm]
    | some s =>
      by_cases hs : s = ""
      · simp [extractLoop, hm, hs]
      · simp [extractLoop, hm, hs]
  | exc e => cases e <;> simp [extractLoop, hm]

/-- C5: the orchestrator invokes the strategies in the fixed order
0 (CLI tool), 1 (account API), 2 (browser automation), 3 (filesystem
scan), 4 (manual prompt).  If the first success-shaped outcome (a
non-empty key, reached after only falsy or caught-ordinary-exception
outcomes) occurs at strategy `i`, `extract` invokes exactly strategies
0..i, persists the key (the save event is the last event before
returning), and returns it without invoking any later strategy; if every
strategy yields a falsy outcome or a caught ordinary exception,
`extract` invokes all five, returns no key, and emits the
suggested-alternatives list. -/
theorem C5_orchestrator_order (env : ExtractEnv) :
    (∀ i k, i < 5 → reaches env i →
      methodOutcome env i = StratOutcome.ret (some k) → k ≠ "" →
      extract env = (some k,
        (List.range (i + 1)).map ExtractEvent.invoke ++ [ExtractEvent.save k]))
    ∧ ((∀ i, i < 5 → nonSuccess (methodOutcome env i) = true) →
      extract env = (none,
        (List.range 5).map ExtractEvent.invoke ++ [ExtractEvent.suggest])) := by
  constructor
  · intro i k hi hr hm hk
    interval_cases i
    · show extractLoop env [0, 1, 2, 3, 4] = _
      rw [extractLoop_cons_success env 0 _ k hm hk]
      rfl
    · show extractLoop env [0, 1, 2, 3, 4] = _
      rw [extractLoop_cons_nonSuccess env 0 _ (hr 0 (by norm_num)),
        extractLoop_cons_success env 1 _ k hm hk]
      rfl
    · show extractLoop env [0, 1, 2, 3, 4] = _
      rw [extractLoop_cons_nonSuccess env 0 _ (hr 0 (by norm_num)),
        extractLoop_cons_nonSuccess env 1 _ (hr 1 (by norm_num)),
        extractLoop_cons_success env 2 _ k hm hk]
      rfl
    · show extractLoop env [0, 1, 2, 3, 4] = _
      rw [extractLoop_cons_nonSuccess env 0 _ (hr 0 (by norm_num)),
        extractLoop_cons_nonSuccess env 1 _ (hr 1 (by norm_num)),
        extractLoop_cons_nonSuccess env 2 _ (hr 2 (by norm_num)),
        extractLoop_cons_success env 3 _ k hm hk]
      rfl
    · show extractLoop env [0, 1, 2, 3, 4] = _
      rw [extractLoop_cons_nonSuccess env 0 _ (hr 0 (by norm_num)),
        extractLoop_cons_nonSuccess env 1 _ (hr 1 (by norm_num)),
        extractLoop_cons_nonSuccess env 2 _ (hr 2 (by norm_num)),
        extractLoop_cons_nonSuccess env 3 _ (hr 3 (by norm_num)),
        extractLoop_cons_success env 4 _ k hm hk]
      rfl
  · intro h
    show extractLoop env [0, 1, 2, 3, 4] = _
    rw [extractLoop_cons_nonSuccess env 0 _ (h 0 (by norm_num)),
      extractLoop_cons_nonSuccess env 1 _ (h 1 (by norm_num)),
      extractLoop_cons_nonSuccess env 2 _ (h 2 (by norm_num)),
      extractLoop_cons_nonSuccess env 3 _ (h 3 (by norm_num)),
      extractLoop_cons_nonSuccess env 4 _ (h 4 (by norm_num))]
    rfl

/-- C5 witness: strategies 0 and 1 find nothing, strategy 2 succeeds;
the run invokes 0, 1, 2, saves the key last, and returns it. -/
theorem C5_orchestrator_order_witness :
    extract c5Env = (some "1A2B3C4D",
      [ExtractEvent.invoke 0, ExtractEvent.invoke 1, ExtractEvent.invoke 2,
       ExtractEvent.save "1A2B3C4D"]) := by
  have h := (C5_orchestrator_order c5Env).1 2 "1A2B3C4D" (by norm_num)
    (by intro j hj; interval_cases j <;> rfl) rfl (by decide)
  simpa using h

theorem invoke_mem_extract (env : ExtractEnv) (i : Nat) (hi : i < 5)
    (hr : reaches env i) :
    ExtractEvent.invoke i ∈ (extract env).2 := by
  interval_cases i
  · exact invoke_head_mem env 0 _
  · show ExtractEvent.invoke 1 ∈ (extractLoop env [0, 1, 2, 3, 4]).2
    rw [extractLoop_cons_nonSuccess env 0 _ (hr 0 (by norm_num))]
    exact List.mem_cons_of_mem _ (invoke_head_mem env 1 _)
  · show ExtractEvent.invoke 2 ∈ (extractLoop env [0, 1, 2, 3, 4]).2
    rw [extractLoop_cons_nonSuccess env 0 _ (hr 0 (by norm_num)),
      extractLoop_cons_nonSuccess env 1 _ (hr 1 (by norm_num))]
    exact List.mem_cons_of_mem _ (List.mem_cons_of_mem _ (invoke_head_mem env 2 _))
  · show ExtractEvent.invoke 3 ∈ (extractLoop env [0, 1, 2, 3, 4]).2
    rw [extractLoop_cons_nonSuccess env 0 _ (hr 0 (by norm_num)),
      extractLoop_cons_nonSuccess env 1 _ (hr 1 (by norm_num)),
      extractLoop_cons_nonSuccess env 2 _ (hr 2 (by norm_num))]
    exact List.mem_cons_of_mem _ (List.mem_cons_of_mem _
      (List.mem_cons_of_mem _ (invoke_head_mem env 3 _)))
  · show ExtractEvent.invoke 4 ∈ (extractLoop env [0, 1, 2, 3, 4]).2
    rw [extractLoop_cons_nonSuccess env 0 _ (hr 0 (by norm_num)),
      extractLoop_cons_nonSuccess env 1 _ (hr 1 (by norm_num)),
      extractLoop_cons_nonSuccess env 2 _ (hr 2 (by norm_num)),
      extractLoop_cons_nonSuccess env 3 _ (hr 3 (by norm_num))]
    exact List.mem_cons_of_mem _ (List.mem_cons_of_mem _
      (List.mem_cons_of_mem _ (List.mem_cons_of_mem _ (invoke_head_mem env 4 _))))

/-- C6 counterexample: the claim "every exception raised inside a
strategy is caught and the next strategy is attempted" is false on the
code: a `KeyboardInterrupt` in strategy 0 is caught by the dedicated
handler at `activation_extractor.py` 362-364, which returns `None` at
once — strategy 1, which here would have succeeded, is never invoked. -/
theorem C6_counterexample :
    extract c6Env = (none, [ExtractEvent.invoke 0]) ∧
    ExtractEvent.invoke 1 ∉ (extract c6Env).2 := by
  decide

/-- C6 (amended): every *ordinary* exception (Python `Exception`) raised
inside a strategy is caught at the orchestrator boundary and the next
strategy in the order is attempted; a `KeyboardInterrupt` is also caught
(nothing propagates out of `extract`) but cancels the run instead of
advancing. -/
theorem C6_ordinary_exception_continues (env : ExtractEnv) (i : Nat)
    (hi : i + 1 < 5) (hr : reaches env i)
    (hm : methodOutcome env i = StratOutcome.exc ExcClass.ordinary) :
    ExtractEvent.invoke (i + 1) ∈ (extract env).2 := by
  apply invoke_mem_extract env (i + 1) hi
  intro j hj
  rcases Nat.lt_succ_iff_lt_or_eq.mp hj with h | h
  · exact hr j h
  · subst h
    rw [hm]
    rfl

/-- C6 amended-claim witness: after strategy 0 raises an ordinary
exception, strategy 1 is still invoked. -/
theorem C6_ordinary_exception_continues_witness :
    ExtractEvent.invoke 1 ∈ (extract c6EnvOrd).2 :=
  C6_ordinary_exception_continues c6EnvOrd 0 (by norm_num)
    (fun j hj => absurd hj (Nat.not_lt_zero j)) rfl

/-! ## Claim C8 -/

set_option maxRecDepth 40000 in
/-- C8: the player-identifier derivation is deterministic — it is a pure
function.  Without a custom identifier it always returns the base64
encoding of the SHA-1 digest of the empty byte string (the concrete
value `2jmj7l5rSw0yVb/vlWAYkK/YBwk=`), and for a fixed custom hex
identifier it always returns the base64 encoding of its unhexlified
bytes (with trailing whitespace stripped, which leaves base64 output
unchanged). -/
theorem C8_player_id_deterministic :
    generate_player_id none = some "2jmj7l5rSw0yVb/vlWAYkK/YBwk=" ∧
    base64Encode (sha1 []) = "2jmj7l5rSw0yVb/vlWAYkK/YBwk=" ∧
    (∀ c bs, unhexlify c = some bs → c ≠ "" →
      generate_player_id (some c) = some (pyRstrip (base64Encode bs))) := by
  refine ⟨by decide, by decide, ?_⟩
  intro c bs h hne
  simp only [generate_player_id]
  rw [if_neg hne, h]
  rfl

set_option maxRecDepth 40000 in
/-- C8 witness: the custom identifier `DEADBEEF` always yields
`3q2+7w==`. -/
theorem C8_player_id_deterministic_witness :
    generate_player_id (some "DEADBEEF") = some "3q2+7w==" := by
  have h := C8_player_id_deterministic.2.2 "DEADBEEF" [222, 173, 190, 239]
    (by decide) (by decide)
  rw [h]
  decide

/-! ## Claim C9 -/

theorem mkdtemp_fresh (fs : TmpFS) (h : TmpFS.WF fs) :
    (mkdtemp fs).1 ∉ fs.tempDirs :=
  fun hm => absurd (h _ hm) (lt_irrefl _)

theorem rmtree_mkdtemp (fs : TmpFS) (h : TmpFS.WF fs) :
    (rmtree (mkdtemp fs).1 (mkdtemp fs).2).tempDirs = fs.tempDirs := by
  show List.filter (fun x => x ≠ fs.counter) (fs.counter :: fs.tempDirs) = fs.tempDirs
  rw [List.filter_cons_of_neg]
  · apply List.filter_eq_self.mpr
    intro a ha
    simpa using Nat.ne_of_lt (h a ha)
  · simp

theorem upload_cleanup (env : UploadEnv) (fs : TmpFS) (h : TmpFS.WF fs) :
    (upload_file env fs).2.1.tempDirs = fs.tempDirs ∧
    (∀ d, (upload_file env fs).2.2 = some d → d ∉ fs.tempDirs) := by
  unfold upload_file
  split
  · exact ⟨rfl, by intro d hd; cases hd⟩
  · split
    · exact ⟨rfl, by intro d hd; cases hd⟩
    · split
      · exact ⟨rfl, by intro d hd; cases hd⟩
      · refine ⟨rmtree_mkdtemp fs h, ?_⟩
        intro d hd
        cases hd
        exact mkdtemp_fresh fs h

theorem chunk_cleanup (env : ChunkEnv) (fs : TmpFS) (h : TmpFS.WF fs) :
    (chunk_file env fs).2.1.tempDirs = fs.tempDirs ∧
    (∀ d, (chunk_file env fs).2.2 = some d → d ∉ fs.tempDirs) := by
  unfold chunk_file
  split
  · exact ⟨rfl, by intro d hd; cases hd⟩
  · split
    · exact ⟨rfl, by intro d hd; cases hd⟩
    · refine ⟨rmtree_mkdtemp fs h, ?_⟩
      intro d hd
      cases hd
      exact mkdtemp_fresh fs h

/-- C9: on every outcome of an upload-conversion request and of a
chunking request — validation failure, conversion/chunking error, or
success — the set of temporary directories after the request equals the
set before it (any directory the request created was removed before
completion), and the directory a request creates is fresh: it is not
among the directories existing when the request started. -/
theorem C9_temp_dir_isolation (uenv : UploadEnv) (cenv : ChunkEnv)
    (fs1 fs2 : TmpFS) (h1 : TmpFS.WF fs1) (h2 : TmpFS.WF fs2) :
    ((upload_file uenv fs1).2.1.tempDirs = fs1.tempDirs ∧
      (∀ d, (upload_file uenv fs1).2.2 = some d → d ∉ fs1.tempDirs)) ∧
    ((chunk_file cenv fs2).2.1.tempDirs = fs2.tempDirs ∧
      (∀ d, (chunk_file cenv fs2).2.2 = some d → d ∉ fs2.tempDirs)) :=
  ⟨upload_cleanup uenv fs1 h1, chunk_cleanup cenv fs2 h2⟩

/-- C9 witness: a concrete successful upload and a concrete successful
chunking over a filesystem that already holds two temp dirs. -/
theorem C9_temp_dir_isolation_witness :
    (upload_file c9UploadEnv c9FS).2.1.tempDirs = c9FS.tempDirs ∧
    (chunk_file c9ChunkEnv c9FS).2.1.tempDirs = c9FS.tempDirs ∧
    (2 : Nat) ∉ c9FS.tempDirs := by
  have h := C9_temp_dir_isolation c9UploadEnv c9ChunkEnv c9FS c9FS
    (by unfold TmpFS.WF; decide) (by unfold TmpFS.WF; decide)
  exact ⟨h.1.1, h.2.1, h.1.2 2 (by decide)⟩

/-! ## Claim C10 -/

theorem buildChunks_of_ge (d total : ℚ) (fuel : Nat) (s : ℚ) (h : ¬ s < total) :
    buildChunks d total fuel s = [] := by
  cases fuel <;> simp [buildChunks, h]

theorem buildChunks_tilesFrom (d total : ℚ) (hd : 0 < d) :
    ∀ (fuel : Nat) (s : ℚ), s < total → total - s ≤ fuel * d →
      tilesFrom total s (buildChunks d total fuel s) := by
  intro fuel
  induction fuel with
  | zero =>
    intro s hs hb
    exfalso
    push_cast at hb
    linarith
  | succ n ih =>
    intro s hs hb
    rw [buildChunks, if_pos hs]
    by_cases hc : s + d < total
    · rw [min_eq_left (le_of_lt hc)]
      refine ⟨rfl, show s < s + d by linarith, ?_⟩
      apply ih (s + d) hc
      push_cast at hb ⊢
      linarith
    · rw [min_eq_right (not_lt.mp hc)]
      refine ⟨rfl, hs, ?_⟩
      rw [buildChunks_of_ge d total n total (lt_irrefl total)]
      rfl

theorem buildChunks_size (d total : ℚ) (hd : 0 < d) :
    ∀ (fuel : Nat) (s : ℚ) (p : ℚ × ℚ), p ∈ buildChunks d total fuel s →
      p.2 - p.1 ≤ d ∧ 0 < p.2 - p.1 := by
  intro fuel
  induction fuel with
  | zero =>
    intro s p hp
    simp [buildChunks] at hp
  | succ n ih =>
    intro s p hp
    rw [buildChunks] at hp
    by_cases hs : s < total
    · rw [if_pos hs] at hp
      rcases List.mem_cons.mp hp with h | h
      · subst h
        constructor
        · simp only
          have := min_le_left (s + d) total
          linarith
        · simp only
          have h1 : s < min (s + d) total := lt_min (by linarith) hs
          linarith
      · exact ih _ p h
    · rw [if_neg hs] at hp
      simp at hp

/-- C10: the per-chunk duration is `(target size / file size) × total
duration` floored at the 60-second minimum, and for a positive total
duration (and sufficient loop fuel) the produced chunks tile
`[0, total]` consecutively: the first starts at 0, each chunk starts
where the previous one ended, every chunk is non-empty with length at
most the chunk duration, and the last ends exactly at the total
duration. -/
theorem C10_chunks_tile (totalDuration fileSizeMb maxSizeMb : ℚ) (fuel : Nat)
    (ht : 0 < totalDuration) (hb : totalDuration ≤ fuel * 60) :
    60 ≤ chunk_duration maxSizeMb fileSizeMb totalDuration ∧
    chunk_duration maxSizeMb fileSizeMb totalDuration =
      max ((maxSizeMb / fileSizeMb) * totalDuration) 60 ∧
    tilesFrom totalDuration 0 (split_audio_file fuel totalDuration fileSizeMb maxSizeMb) ∧
    (∀ p ∈ split_audio_file fuel totalDuration fileSizeMb maxSizeMb,
      p.2 - p.1 ≤ chunk_duration maxSizeMb fileSizeMb totalDuration ∧
      0 < p.2 - p.1) := by
  have h60 : (60 : ℚ) ≤ chunk_duration maxSizeMb fileSizeMb totalDuration :=
    le_max_right _ _
  have hdpos : 0 < chunk_duration maxSizeMb fileSizeMb totalDuration := by linarith
  refine ⟨h60, rfl, ?_, ?_⟩
  · apply buildChunks_tilesFrom _ _ hdpos fuel 0 ht
    have : (fuel : ℚ) * 60 ≤
        (fuel : ℚ) * chunk_duration maxSizeMb fileSizeMb totalDuration :=
      mul_le_mul_of_nonneg_left h60 (Nat.cast_nonneg fuel)
    linarith
  · intro p hp
    exact buildChunks_size _ _ hdpos fuel 0 p hp

/-- C10 witness: a 150-second file of 48 MB split with a 24 MB target
gives a 75-second chunk duration and the two chunks (0, 75), (75, 150),
which tile `[0, 150]`. -/
theorem C10_chunks_tile_witness :
    tilesFrom 150 0 (split_audio_file 3 150 48 24) ∧
    split_audio_file 3 150 48 24 = [(0, 75), (75, 150)] := by
  have h := C10_chunks_tile 150 48 24 3 (by norm_num) (by norm_num)
  exact ⟨h.2.2.1, by norm_num [split_audio_file, chunk_duration, buildChunks]⟩

/-! ## Claim C7

The scan theorem is universal: any directory (file list), any file
position, any allowed text-like suffix, and any content that contains
the text `"activation_bytes": "1a2b3c4d"` anywhere.  The development
characterises a successful pattern-1 match (`matchP1At_some`), shows a
match beginning strictly before the quoted text can never consume any
of it (`matchP1At_no_cross` and its per-component helpers), concludes
that the scan always reaches the occurrence and captures `1a2b3c4d`
(`c7Cap_mem_findAllAux`), and lifts that capture through the candidate
set collection and the directory fold. -/

theorem matchLitCI_some (lit : List Char) :
    ∀ (s r : List Char), matchLitCI lit s = some r →
      ∃ c, s = c ++ r ∧ c.map pyLowerChar = lit.map pyLowerChar := by
  induction lit with
  | nil =>
    intro s r h
    simp only [matchLitCI, Option.some_inj] at h
    exact ⟨[], by simp [h], by simp⟩
  | cons l ls ih =>
    intro s r h
    cases s with
    | nil => simp [matchLitCI] at h
    | cons c cs =>
      by_cases he : pyLowerChar l = pyLowerChar c
      · simp only [matchLitCI, if_pos he] at h
        obtain ⟨c', hc1, hc2⟩ := ih cs r h
        exact ⟨c :: c', by simp [hc1], by simp [hc2, he]⟩
      · simp [matchLitCI, if_neg he] at h

theorem takeHex8_some (s cap r : List Char) (h : takeHex8 s = some (cap, r)) :
    s = cap ++ r ∧ cap.length = 8 ∧ ∀ x ∈ cap, hexDigit x = true := by
  unfold takeHex8 at h
  by_cases hc : ((s.take 8).length = 8 && (s.take 8).all hexDigit) = true
  · rw [if_pos hc] at h
    simp only [Option.some_inj, Prod.mk.injEq] at h
    obtain ⟨h1, h2⟩ := h
    simp only [Bool.and_eq_true, decide_eq_true_eq, List.all_eq_true] at hc
    subst h1
    subst h2
    exact ⟨(List.take_append_drop 8 s).symm, hc.1, hc.2⟩
  · rw [if_neg hc] at h
    cases h

theorem matchClassHex_some (s cap r : List Char) (h : matchClassHex s = some (cap, r)) :
    ∃ cls, s = cls ++ cap ++ r ∧ cls ≠ [] ∧ (∀ x ∈ cls, classChar x = true) ∧
      cap.length = 8 ∧ ∀ x ∈ cap, hexDigit x = true := by
  unfold matchClassHex at h
  by_cases hc : (s.takeWhile classChar).isEmpty = true
  · rw [if_pos hc] at h
    cases h
  · rw [if_neg hc] at h
    obtain ⟨h1, h2, h3⟩ := takeHex8_some _ _ _ h
    refine ⟨s.takeWhile classChar, ?_, ?_, ?_, h2, h3⟩
    · rw [List.append_assoc, ← h1, List.takeWhile_append_dropWhile]
    · intro he
      rw [he] at hc
      exact hc rfl
    · intro x hx
      exact List.mem_takeWhile_imp hx

theorem matchDotBytes_some (r cap rest : List Char)
    (h : matchDotBytes r = some (cap, rest)) :
    ∃ dot bytes cls, r = dot ++ bytes ++ cls ++ cap ++ rest ∧
      dot.length ≤ 1 ∧ bytes.map pyLowerChar = "bytes".data ∧
      cls ≠ [] ∧ (∀ x ∈ cls, classChar x = true) ∧
      cap.length = 8 ∧ ∀ x ∈ cap, hexDigit x = true := by
  have hlow : ("bytes".data).map pyLowerChar = "bytes".data := by decide
  cases r with
  | nil => simp [matchDotBytes, matchLitCI] at h
  | cons c r2 =>
    simp only [matchDotBytes] at h
    by_cases hnl : c = '\n'
    · rw [if_pos hnl] at h
      rw [Option.none_orElse] at h
      rw [Option.bind_eq_some] at h
      obtain ⟨r3, hlit, hch⟩ := h
      obtain ⟨bytes, hs, hmap⟩ := matchLitCI_some _ _ _ hlit
      obtain ⟨cls, hr3, hcne, hcall, hlen, hhex⟩ := matchClassHex_some _ _ _ hch
      refine ⟨[], bytes, cls, ?_, by simp, by rw [hmap, hlow], hcne, hcall, hlen, hhex⟩
      simp [hs, hr3]
    · rw [if_neg hnl] at h
      cases hfi : (matchLitCI "bytes".data r2).bind matchClassHex with
      | some v =>
        rw [hfi, Option.some_orElse] at h
        obtain rfl : v = (cap, rest) := by simpa using h
        rw [Option.bind_eq_some] at hfi
        obtain ⟨r3, hlit, hch⟩ := hfi
        obtain ⟨bytes, hs, hmap⟩ := matchLitCI_some _ _ _ hlit
        obtain ⟨cls, hr3, hcne, hcall, hlen, hhex⟩ := matchClassHex_some _ _ _ hch
        refine ⟨[c], bytes, cls, ?_, by simp, by rw [hmap, hlow], hcne, hcall, hlen, hhex⟩
        simp [hs, hr3]
      | none =>
        rw [hfi, Option.none_orElse] at h
        rw [Option.bind_eq_some] at h
        obtain ⟨r3, hlit, hch⟩ := h
        obtain ⟨bytes, hs, hmap⟩ := matchLitCI_some _ _ _ hlit
        obtain ⟨cls, hr3, hcne, hcall, hlen, hhex⟩ := matchClassHex_some _ _ _ hch
        refine ⟨[], bytes, cls, ?_, by simp, by rw [hmap, hlow], hcne, hcall, hlen, hhex⟩
        simp [hs, hr3]

theorem matchP1At_some (s cap rest : List Char) (h : matchP1At s = some (cap, rest)) :
    ∃ lbl dot bytes cls, s = lbl ++ dot ++ bytes ++ cls ++ cap ++ rest ∧
      lbl.map pyLowerChar = "activation".data ∧ dot.length ≤ 1 ∧
      bytes.map pyLowerChar = "bytes".data ∧ cls ≠ [] ∧
      (∀ x ∈ cls, classChar x = true) ∧ cap.length = 8 ∧
      ∀ x ∈ cap, hexDigit x = true := by
  have hlow : ("activation".data).map pyLowerChar = "activation".data := by decide
  unfold matchP1At at h
  rw [Option.bind_eq_some] at h
  obtain ⟨r1, hlit, hdb⟩ := h
  obtain ⟨lbl, hs, hmap⟩ := matchLitCI_some _ _ _ hlit
  obtain ⟨dot, bytes, cls, hr1, hd, hb, hcne, hcall, hlen, hhex⟩ :=
    matchDotBytes_some _ _ _ hdb
  refine ⟨lbl, dot, bytes, cls, ?_, by rw [hmap, hlow], hd, hb, hcne, hcall, hlen, hhex⟩
  simp [hs, hr1]

theorem quote_notin_activation (l : List Char)
    (hmap : l.map pyLowerChar = "activation".data) (hq : '"' ∈ l) : False := by
  have h1 := List.mem_map_of_mem pyLowerChar hq
  rw [hmap] at h1
  exact absurd h1 (by decide)

theorem quote_notin_bytes (l : List Char)
    (hmap : l.map pyLowerChar = "bytes".data) (hq : '"' ∈ l) : False := by
  have h1 := List.mem_map_of_mem pyLowerChar hq
  rw [hmap] at h1
  exact absurd h1 (by decide)

theorem bytes_not_at_tail (l R suf : List Char)
    (hmap : l.map pyLowerChar = "bytes".data) (heq : l ++ R = c7Tail ++ suf) :
    False := by
  cases l with
  | nil => simp at hmap
  | cons x xs =>
    have hx : x = 'a' := by
      have : x :: (xs ++ R) = 'a' :: ("ctivation_bytes\": \"1a2b3c4d\"".data ++ suf) := by
        simpa [c7Tail] using heq
    /- head equality -/
      exact (List.cons.injEq _ _ _ _ ▸ this).1
    subst hx
    simp only [List.map_cons] at hmap
    have : pyLowerChar 'a' = 'b' := (List.cons.injEq _ _ _ _ ▸ hmap).1
    exact absurd this (by decide)

theorem no_cross_cap (cap rest c4 suf : List Char)
    (hcaplen : cap.length = 8) (hcaphex : ∀ x ∈ cap, hexDigit x = true)
    (hE : cap ++ rest = c4 ++ (c7Text ++ suf)) :
    ∃ q, rest = q ++ (c7Text ++ suf) ∧ q.length ≤ c4.length := by
  rcases List.append_eq_append_iff.mp hE with ⟨a, hA, hB⟩ | ⟨c, hC, hD⟩
  · refine ⟨a, hB, ?_⟩
    rw [hA, List.length_append]
    omega
  · cases c with
    | nil =>
      simp only [List.nil_append] at hD
      exact ⟨[], hD.symm, by simp⟩
    | cons x xs =>
      exfalso
      rw [show c7Text = '"' :: c7Tail from rfl, List.cons_append, List.cons_append] at hD
      injection hD with h1 h2
      have hq : '"' ∈ cap := by
        rw [hC, ← h1]
        exact List.mem_append_right _ (List.mem_cons_self _ _)
      exact absurd (hcaphex '"' hq) (by decide)

theorem no_cross_cls (cls cap rest c3 suf : List Char)
    (hclsall : ∀ x ∈ cls, classChar x = true)
    (hcaplen : cap.length = 8) (hcaphex : ∀ x ∈ cap, hexDigit x = true)
    (hE : cls ++ (cap ++ rest) = c3 ++ (c7Text ++ suf)) :
    ∃ q, rest = q ++ (c7Text ++ suf) ∧ q.length ≤ c3.length := by
  rcases List.append_eq_append_iff.mp hE with ⟨a, hA, hB⟩ | ⟨c, hC, hD⟩
  · obtain ⟨q, hq1, hq2⟩ := no_cross_cap cap rest a suf hcaplen hcaphex hB
    refine ⟨q, hq1, ?_⟩
    rw [hA, List.length_append]
    omega
  · cases c with
    | nil =>
      simp only [List.nil_append] at hD
      obtain ⟨q, hq1, hq2⟩ := no_cross_cap cap rest [] suf hcaplen hcaphex
        (by rw [List.nil_append]; exact hD.symm)
      refine ⟨q, hq1, ?_⟩
      have h0 : q.length = 0 := by simpa using hq2
      omega
    | cons x xs =>
      exfalso
      rw [show c7Text = '"' :: c7Tail from rfl, List.cons_append, List.cons_append] at hD
      injection hD with h1 h2
      cases xs with
      | nil =>
        simp only [List.nil_append] at h2
        have h3 : (cap ++ rest).take 8 = cap := by
          rw [← hcaplen]
          exact List.take_left cap rest
        rw [← h2] at h3
        have h4 : (c7Tail ++ suf).take 8 = ("activati".data : List Char) := rfl
        have ht : 't' ∈ cap := by
          rw [← h3, h4]
          decide
        exact absurd (hcaphex 't' ht) (by decide)
      | cons y ys =>
        rw [show c7Tail = 'a' :: "ctivation_bytes\": \"1a2b3c4d\"".data from rfl,
          List.cons_append, List.cons_append] at h2
        injection h2 with h3 h4
        have hmem : 'a' ∈ cls := by
          rw [hC, ← h3]
          exact List.mem_append_right _ (by simp)
        exact absurd (hclsall 'a' hmem) (by decide)

theorem no_cross_bytes (bytes cls cap rest c2 suf : List Char)
    (hbmap : bytes.map pyLowerChar = "bytes".data)
    (hclsall : ∀ x ∈ cls, classChar x = true)
    (hcaplen : cap.length = 8) (hcaphex : ∀ x ∈ cap, hexDigit x = true)
    (hE : bytes ++ (cls ++ (cap ++ rest)) = c2 ++ (c7Text ++ suf)) :
    ∃ q, rest = q ++ (c7Text ++ suf) ∧ q.length ≤ c2.length := by
  rcases List.append_eq_append_iff.mp hE with ⟨a, hA, hB⟩ | ⟨c, hC, hD⟩
  · obtain ⟨q, hq1, hq2⟩ := no_cross_cls cls cap rest a suf hclsall hcaplen hcaphex hB
    refine ⟨q, hq1, ?_⟩
    rw [hA, List.length_append]
    omega
  · cases c with
    | nil =>
      simp only [List.nil_append] at hD
      obtain ⟨q, hq1, hq2⟩ := no_cross_cls cls cap rest [] suf hclsall hcaplen hcaphex
        (by rw [List.nil_append]; exact hD.symm)
      refine ⟨q, hq1, ?_⟩
      have h0 : q.length = 0 := by simpa using hq2
      omega
    | cons x xs =>
      exfalso
      rw [show c7Text = '"' :: c7Tail from rfl, List.cons_append, List.cons_append] at hD
      injection hD with h1 h2
      exact quote_notin_bytes bytes hbmap
        (by rw [hC, ← h1]; exact List.mem_append_right _ (List.mem_cons_self _ _))

theorem no_cross_dot (dot bytes cls cap rest c1 suf : List Char)
    (hdot : dot.length ≤ 1)
    (hbmap : bytes.map pyLowerChar = "bytes".data)
    (hclsall : ∀ x ∈ cls, classChar x = true)
    (hcaplen : cap.length = 8) (hcaphex : ∀ x ∈ cap, hexDigit x = true)
    (hE : dot ++ (bytes ++ (cls ++ (cap ++ rest))) = c1 ++ (c7Text ++ suf)) :
    ∃ q, rest = q ++ (c7Text ++ suf) ∧ q.length ≤ c1.length := by
  rcases List.append_eq_append_iff.mp hE with ⟨a, hA, hB⟩ | ⟨c, hC, hD⟩
  · obtain ⟨q, hq1, hq2⟩ := no_cross_bytes bytes cls cap rest a suf hbmap hclsall
      hcaplen hcaphex hB
    refine ⟨q, hq1, ?_⟩
    rw [hA, List.length_append]
    omega
  · cases c with
    | nil =>
      simp only [List.nil_append] at hD
      obtain ⟨q, hq1, hq2⟩ := no_cross_bytes bytes cls cap rest [] suf hbmap hclsall
        hcaplen hcaphex (by rw [List.nil_append]; exact hD.symm)
      refine ⟨q, hq1, ?_⟩
      have h0 : q.length = 0 := by simpa using hq2
      omega
    | cons x xs =>
      exfalso
      have hxs : xs = [] := by
        have hl := congrArg List.length hC
        rw [List.length_append] at hl
        simp only [List.length_cons] at hl
        cases xs with
        | nil => rfl
        | cons z zs =>
          simp only [List.length_cons] at hl
          omega
      subst hxs
      rw [show c7Text = '"' :: c7Tail from rfl, List.cons_append, List.cons_append] at hD
      injection hD with h1 h2
      simp only [List.nil_append] at h2
      exact bytes_not_at_tail bytes (cls ++ (cap ++ rest)) suf hbmap h2.symm

theorem matchP1At_no_cross (p suf cap rest : List Char) (hp : p ≠ [])
    (h : matchP1At (p ++ (c7Text ++ suf)) = some (cap, rest)) :
    ∃ q, rest = q ++ (c7Text ++ suf) ∧ q.length < p.length := by
  obtain ⟨lbl, dot, bytes, cls, heq, hlblmap, hdot, hbmap, hclsne, hclsall,
    hcaplen, hcaphex⟩ := matchP1At_some _ _ _ h
  have hlbl_len : lbl.length = 10 := by
    have h10 := congrArg List.length hlblmap
    simpa using h10
  simp only [List.append_assoc] at heq
  rcases List.append_eq_append_iff.mp heq with ⟨a, hA, hB⟩ | ⟨c, hC, hD⟩
  · -- the label literal would have to extend into the quoted text
    cases a with
    | nil =>
      rw [List.append_nil] at hA
      simp only [List.nil_append] at hB
      obtain ⟨q, hq1, hq2⟩ := no_cross_dot dot bytes cls cap rest [] suf hdot hbmap
        hclsall hcaplen hcaphex (by rw [List.nil_append]; exact hB.symm)
      refine ⟨q, hq1, ?_⟩
      have h0 : q.length = 0 := by simpa using hq2
      have hppos : 0 < p.length := List.length_pos.mpr hp
      omega
    | cons x xs =>
      exfalso
      rw [show c7Text = '"' :: c7Tail from rfl, List.cons_append, List.cons_append] at hB
      injection hB with h1 h2
      exact quote_notin_activation lbl hlblmap
        (by rw [hA, ← h1]; exact List.mem_append_right _ (List.mem_cons_self _ _))
  · obtain ⟨q, hq1, hq2⟩ := no_cross_dot dot bytes cls cap rest c suf hdot hbmap
      hclsall hcaplen hcaphex hD
    refine ⟨q, hq1, ?_⟩
    have hl := congrArg List.length hC
    rw [List.length_append] at hl
    omega

theorem c7Cap_mem_findAllAux :
    ∀ (fuel : Nat) (p suf : List Char), (p ++ (c7Text ++ suf)).length ≤ fuel →
      c7Cap ∈ findAllAux matchP1At fuel (p ++ (c7Text ++ suf)) := by
  intro fuel
  induction fuel with
  | zero =>
    intro p suf hlen
    exfalso
    have h30 : c7Text.length = 30 := rfl
    simp only [List.length_append] at hlen
    omega
  | succ n ih =>
    intro p suf hlen
    cases p with
    | nil =>
      simp only [List.nil_append] at hlen ⊢
      have hnone : matchP1At ('"' :: (c7Tail ++ suf)) = none := rfl
      rw [show c7Text ++ suf = '"' :: (c7Tail ++ suf) from rfl]
      rw [findAllAux, hnone]
      have h30 : c7Text.length = 30 := rfl
      rw [List.length_append] at hlen
      cases n with
      | zero => omega
      | succ n2 =>
        have hsucc : matchP1At (c7Tail ++ suf) = some (c7Cap, '"' :: suf) := rfl
        rw [show c7Tail ++ suf = 'a' :: ("ctivation_bytes\": \"1a2b3c4d\"".data ++ suf)
          from rfl]
        rw [findAllAux]
        rw [show matchP1At ('a' :: ("ctivation_bytes\": \"1a2b3c4d\"".data ++ suf)) =
          some (c7Cap, '"' :: suf) from hsucc]
        exact List.mem_cons_self _ _
    | cons x xs =>
      rw [List.cons_append] at hlen ⊢
      cases hm : matchP1At (x :: (xs ++ (c7Text ++ suf))) with
      | none =>
        rw [findAllAux, hm]
        apply ih xs suf
        simp only [List.length_cons] at hlen
        omega
      | some v =>
        obtain ⟨cap, rest⟩ := v
        rw [findAllAux, hm]
        have hm2 : matchP1At ((x :: xs) ++ (c7Text ++ suf)) = some (cap, rest) := by
          rw [List.cons_append]
          exact hm
        obtain ⟨q, hq1, hq2⟩ := matchP1At_no_cross (x :: xs) suf cap rest
          (by simp) hm2
        have hmem := ih q suf (by
          have hlq := congrArg List.length hq1
          simp only [List.length_append, List.length_cons] at hlen hlq hq2 ⊢
          omega)
        rw [← hq1] at hmem
        exact List.mem_cons_of_mem _ hmem

theorem c7Cap_mem_findAll (p suf : List Char) :
    c7Cap ∈ findAll matchP1At (p ++ (c7Text ++ suf)) :=
  c7Cap_mem_findAllAux _ p suf le_rfl

theorem mem_collectCaptures_step (acc : List String) (cap : List Char) (u : String)
    (hu : u ∈ acc) :
    u ∈ (if cap.length = 8 then
          (if acc.contains (pyUpper ⟨cap⟩) then acc else acc ++ [pyUpper ⟨cap⟩])
         else acc) := by
  split
  · split
    · exact hu
    · exact List.mem_append_left _ hu
  · exact hu

theorem collect_mem_mono (caps : List (List Char)) :
    ∀ (acc : List String) (u : String), u ∈ acc → u ∈ collectCaptures acc caps := by
  induction caps with
  | nil => intro acc u hu; exact hu
  | cons c cs ih =>
    intro acc u hu
    unfold collectCaptures at ih ⊢
    rw [List.foldl_cons]
    exact ih _ u (mem_collectCaptures_step acc c u hu)

theorem collect_mem_of_cap (caps : List (List Char)) :
    ∀ (acc : List String) (cap : List Char), cap ∈ caps → cap.length = 8 →
      pyUpper ⟨cap⟩ ∈ collectCaptures acc caps := by
  induction caps with
  | nil =>
    intro acc cap hmem
    exact absurd hmem (List.not_mem_nil cap)
  | cons c cs ih =>
    intro acc cap hmem hlen
    unfold collectCaptures at ih ⊢
    rw [List.foldl_cons]
    rcases List.mem_cons.mp hmem with rfl | hmem2
    · apply collect_mem_mono cs
      rw [if_pos hlen]
      dsimp only
      split
      · next hc => exact List.mem_of_elem_eq_true hc
      · exact List.mem_append_right _ (List.mem_cons_self _ _)
    · exact ih _ cap hmem2 hlen

theorem mem_searchContent_mono (acc : List String) (content : String) (u : String)
    (hu : u ∈ acc) : u ∈ searchContent acc content := by
  unfold searchContent
  apply collect_mem_mono
  apply collect_mem_mono
  apply collect_mem_mono
  exact hu

theorem c7_mem_searchContent (acc : List String) (pre suf : List Char) :
    "1A2B3C4D" ∈ searchContent acc ⟨pre ++ (c7Text ++ suf)⟩ := by
  have hval : pyUpper ⟨c7Cap⟩ = "1A2B3C4D" := by decide
  unfold searchContent
  apply collect_mem_mono
  apply collect_mem_mono
  rw [← hval]
  apply collect_mem_of_cap
  · exact c7Cap_mem_findAll pre suf
  · decide

theorem mem_method3_foldl (files : List ScanFile) :
    ∀ (acc : List String) (u : String), u ∈ acc →
      u ∈ files.foldl (fun a f =>
        if textSuffixes.contains (pyLower f.suffix) then searchContent a f.content
        else a) acc := by
  induction files with
  | nil => intro acc u hu; exact hu
  | cons f fs ih =>
    intro acc u hu
    rw [List.foldl_cons]
    apply ih
    split
    · exact mem_searchContent_mono _ _ _ hu
    · exact hu

/-- C7: running the filesystem scan over any directory that contains a
text-like file whose content includes the text
`"activation_bytes": "1a2b3c4d"` (with arbitrary text around it)
produces the uppercased candidate `1A2B3C4D` in the collected candidate
set. -/
theorem C7_file_scan (files1 files2 : List ScanFile) (sfx : String) (pre suf : List Char)
    (hsfx : textSuffixes.contains (pyLower sfx) = true) :
    "1A2B3C4D" ∈ method_3_candidates
      (files1 ++ ⟨sfx, ⟨pre ++ (c7Text ++ suf)⟩⟩ :: files2) := by
  unfold method_3_candidates
  rw [List.foldl_append, List.foldl_cons]
  apply mem_method3_foldl files2
  rw [if_pos hsfx]
  exact c7_mem_searchContent _ pre suf

/-- C7 witness: a one-file directory whose `.json` file embeds the text
amid other text. -/
theorem C7_file_scan_witness :
    textSuffixes.contains (pyLower ".json") = true ∧
    "1A2B3C4D" ∈ method_3_candidates
      [⟨".json", ⟨"some log text ".data ++ (c7Text ++ " trailing".data)⟩⟩] :=
  ⟨by decide, C7_file_scan [] [] ".json" "some log text ".data " trailing".data (by decide)⟩
